import Mathlib

/-!
Shallow embedding of `dependency_scanner.py` (Python-Dependency-Scanner).

The scanner walks a directory tree, extracts top-level module names from
`import` / `from ... import` statements of every `.py` file, classifies each
module name as external or not, and writes the sorted, deduplicated set of
installable package names to `requirements.txt`.

Modelling choices:
* `PACKAGE_MAPPING` (a JSON dict loaded at startup) is a parameter
  `mapping : String → Option String`.
* `importlib.metadata.distribution(name)` succeeding is a parameter
  `installed : String → Bool` (`PackageNotFoundError` is `false`).
* A Python `set` of strings is a duplicate-free `List String` built with
  `setAdd` (insertion order is irrelevant to the final sorted manifest,
  which we prove).
* `ast` nodes relevant to the scanner are `ImportStmt`; a file on disk is a
  `SrcFile` whose `content` records whether reading / parsing succeeded.
* Exceptions are modelled with `Except`: the per-node `try/except` in
  `scan_imports` is `processNodeCaught`.
* Python's `sorted` on strings is insertion sort by `≤` on strings, with an
  executable comparison `strLeB` proved equivalent to Mathlib's `String ≤`
  (both are lexicographic by character code point).
-/

namespace DepScan

/-- Executable lexicographic strict comparison of character lists, matching
`List.Lex (· < ·)` on `Char`. -/
def charListLt : List Char → List Char → Bool
  | _, [] => false
  | [], _ :: _ => true
  | a :: as, b :: bs => if a < b then true else if a = b then charListLt as bs else false

/-- Executable version of `String ≤` (used so that concrete manifests can be
evaluated by `decide`). -/
def strLeB (a b : String) : Bool := ! charListLt b.data a.data

/-- The `stdlib_modules` set of `is_external_package`. -/
def stdlib_modules : List String :=
  ["os", "sys", "datetime", "math", "random", "time", "json",
   "csv", "re", "collections", "itertools", "functools", "typing",
   "pathlib", "logging", "argparse", "unittest", "warnings"]

/-- The `common_external` set of `is_external_package`. -/
def common_external : List String :=
  ["cv2", "mediapipe", "tensorflow", "torch", "pandas", "numpy",
   "scipy", "matplotlib", "seaborn", "sklearn", "PIL"]

/-- Embedding of `is_external_package(module_name)`.  In the source, the
mapping branch returns `True` in both arms of its `try/except` (installed or
not), so the result does not depend on `installed` there. -/
def is_external_package (mapping : String → Option String) (installed : String → Bool)
    (module_name : String) : Bool :=
  if module_name ∈ stdlib_modules then false
  else
    match mapping module_name with
    | some _ => true
    | none =>
      if installed module_name then true
      else decide (module_name ∈ common_external)

/-- Embedding of `get_package_name(module_name)`:
`PACKAGE_MAPPING.get(module_name, module_name)`. -/
def get_package_name (mapping : String → Option String) (module_name : String) : String :=
  (mapping module_name).getD module_name

/-- Python's `s.split('.')[0]`: the characters before the first dot. -/
def firstSegment (s : String) : String :=
  String.mk (s.data.takeWhile (fun c => c ≠ '.'))

/-- The import statements the scanner reacts to: `ast.Import` (with the full
dotted names of its aliases) and `ast.ImportFrom` (with its module, which the
`ast` module may leave as `None`, and its relative level). -/
inductive ImportStmt where
  | imp (names : List String)
  | fromImp (module : Option String) (level : Nat)
deriving DecidableEq

/-- Body of the per-node loop of `scan_imports`, before its `try/except`.
Accessing `.split` on a `None` module raises `AttributeError`, modelled as
`Except.error`. -/
def processNode (mapping : String → Option String) (installed : String → Bool) :
    ImportStmt → Except String (List String)
  | .imp names => .ok (names.filterMap (fun n =>
      let module_name := firstSegment n
      if is_external_package mapping installed module_name then
        some (get_package_name mapping module_name)
      else none))
  | .fromImp module level =>
    if level = 0 then
      match module with
      | none => .error "AttributeError"
      | some m =>
        let module_name := firstSegment m
        .ok (if is_external_package mapping installed module_name then
              [get_package_name mapping module_name]
            else [])
    else .ok []

/-- The per-node loop with its `try/except Exception: continue`: a failing
node contributes nothing. -/
def processNodeCaught (mapping : String → Option String) (installed : String → Bool)
    (node : ImportStmt) : List String :=
  match processNode mapping installed node with
  | .ok l => l
  | .error _ => []

/-- Adding an element to a Python set of strings (no-op when present). -/
def setAdd (s : List String) (x : String) : List String :=
  if x ∈ s then s else s ++ [x]

/-- Python's `s.update(t)` on sets of strings. -/
def setUnion (s t : List String) : List String := t.foldl setAdd s

/-- Embedding of `scan_imports` on a successfully read and parsed tree:
walk the nodes and accumulate the classified package names into a set. -/
def scanImports (mapping : String → Option String) (installed : String → Bool)
    (nodes : List ImportStmt) : List String :=
  (nodes.flatMap (processNodeCaught mapping installed)).foldl setAdd []

/-- Outcome of reading and parsing one file: the two recovered failure modes
of `scan_imports` (read error, parse/decode error) or a parsed tree. -/
inductive FileContent where
  | unreadable
  | unparsable
  | parsed (nodes : List ImportStmt)
deriving DecidableEq

/-- Embedding of the whole of `scan_imports`: both failure handlers
`return set()`. -/
def scanImportsFile (mapping : String → Option String) (installed : String → Bool) :
    FileContent → List String
  | .unreadable => []
  | .unparsable => []
  | .parsed nodes => scanImports mapping installed nodes

/-- One file yielded by `os.walk`: the path components of its directory
(`root.split(os.path.sep)`), its filename, and what reading/parsing it
produces. -/
structure SrcFile where
  path : List String
  name : String
  content : FileContent
deriving DecidableEq

/-- Python's `file.endswith('.py')`. -/
def endsWithPy (name : String) : Bool := ".py".data.isSuffixOf name.data

/-- What one walked file adds to `all_imports` in `scan_directory`:
nothing if `'.venv' in root.split(os.path.sep)`, nothing if the name does not
end in `.py`, otherwise its `scan_imports`. -/
def fileContribution (mapping : String → Option String) (installed : String → Bool)
    (f : SrcFile) : List String :=
  if ".venv" ∈ f.path then []
  else if endsWithPy f.name then scanImportsFile mapping installed f.content
  else []

/-- Embedding of `scan_directory`: fold the walked files into `all_imports`. -/
def scanDirectory (mapping : String → Option String) (installed : String → Bool)
    (files : List SrcFile) : List String :=
  files.foldl (fun acc f => setUnion acc (fileContribution mapping installed f)) []

/-- Executable decidability of `String ≤` (Mathlib's own instance goes
through `String.ltb`, which the kernel cannot reduce, so concrete manifests
could not be evaluated with it). -/
def strLeDec (a b : String) : Decidable (a ≤ b) :=
  decidable_of_iff (strLeB a b = true) (by
    have key : ∀ s t : List Char, charListLt s t = true ↔ List.Lex (· < ·) s t := by
      intro s
      induction s with
      | nil =>
        intro t
        cases t with
        | nil => simp [charListLt]
        | cons b bs => simp [charListLt]; exact List.Lex.nil
      | cons a as ih =>
        intro t
        cases t with
        | nil => simp [charListLt]
        | cons b bs =>
          by_cases hlt : a < b
          · simp [charListLt, hlt]
            exact List.Lex.rel hlt
          · by_cases heq : a = b
            · subst heq
              simp [charListLt, hlt, ih]
              exact List.Lex.cons_iff.symm
            · simp [charListLt, hlt, heq]
              intro h
              cases h with
              | cons h' => exact heq rfl
              | rel h' => exact hlt h'
    rw [strLeB, Bool.not_eq_true', Bool.eq_false_iff]
    have h1 : (a ≤ b) = ¬ (b < a) := rfl
    rw [h1]
    constructor
    · intro h hba
      exact h ((key _ _).mpr (String.lt_iff_toList_lt.mp hba))
    · intro h hc
      exact h (String.lt_iff_toList_lt.mpr ((key _ _).mp hc)))

/-- Python's `sorted` on a collection of strings (lexicographic by character
code point, which is what `String ≤` is). -/
def sortStrings (l : List String) : List String :=
  @List.insertionSort String (fun a b => a ≤ b) (fun a b => strLeDec a b) l

/-- Embedding of the body of `create_requirements_file`: the lines written to
`requirements.txt`, in order (`for imp in sorted(imports): f.write(imp)`). -/
def create_requirements_lines (imports : List String) : List String :=
  sortStrings imports

/-- The full dotted names that literally appear in one import statement and
that the extractor looks at: the alias names of an `ast.Import`, and the
module of an absolute `ast.ImportFrom` when present. -/
def stmtRawNames : ImportStmt → List String
  | .imp names => names
  | .fromImp module level =>
    if level = 0 then
      match module with
      | some m => [m]
      | none => []
    else []

/-- The full dotted names that literally appear in import statements of a
file (empty if the file never parsed). -/
def fileRawNames (f : SrcFile) : List String :=
  match f.content with
  | .parsed nodes => nodes.flatMap stmtRawNames
  | _ => []

/-- Outcome of the directory-acquisition phase of `main`: proceed to scanning
with a directory, exit with status 1, or (interactive mode with all supplied
answers invalid) keep prompting. -/
inductive DirOutcome where
  | proceed (dir : String)
  | exitNonZero
  | stillPrompting
deriving DecidableEq

/-- Embedding of `get_directory_input`, fed the (already stripped) successive
answers the user types.  An empty answer returns `os.getcwd()`; a valid
directory is returned through `os.path.abspath`; an invalid one prints an
error and loops. -/
def get_directory_input (abspath : String → String) (isdir : String → Bool)
    (cwd : String) : List String → DirOutcome
  | [] => .stillPrompting
  | d :: rest =>
    if d = "" then .proceed cwd
    else if isdir d then .proceed (abspath d)
    else get_directory_input abspath isdir cwd rest

/-- Embedding of the directory-acquisition part of `main`: with `-i DIR` the
absolute path is checked with `os.path.isdir` and a failure is
`sys.exit(1)`; without the flag, `get_directory_input` runs. -/
def resolveProjectDir (abspath : String → String) (isdir : String → Bool)
    (cwd : String) (inputDir : Option String) (inputs : List String) : DirOutcome :=
  match inputDir with
  | some d =>
    let project_dir := abspath d
    if isdir project_dir then .proceed project_dir else .exitNonZero
  | none => get_directory_input abspath isdir cwd inputs

/-- Embedding of `main` up to the manifest: `none` when the run never reaches
the scanning phase (so no file is read and no manifest written), otherwise
the manifest lines produced from the scan. -/
def runScan (abspath : String → String) (isdir : String → Bool) (cwd : String)
    (inputDir : Option String) (inputs : List String)
    (mapping : String → Option String) (installed : String → Bool)
    (files : List SrcFile) : Option (List String) :=
  match resolveProjectDir abspath isdir cwd inputDir inputs with
  | .proceed _ => some (create_requirements_lines (scanDirectory mapping installed files))
  | _ => none

/-- A package mapping with the single entry of the repository's example:
`cv2 ↦ opencv-python`. -/
def demoMapping : String → Option String :=
  fun m => if m = "cv2" then some "opencv-python" else none

/-- An environment in which the distribution `cv2` is installed under its own
name (to exercise mapping precedence over installation). -/
def demoInstalled : String → Bool := fun m => m = "cv2"

/-- The empty package mapping (missing `package_mapping.json`). -/
def emptyMapping : String → Option String := fun _ => none

/-- An environment with no distributions installed. -/
def noneInstalled : String → Bool := fun _ => false

/-- A filesystem in which exactly the directory `/ok` exists. -/
def demoIsdir : String → Bool := fun d => d = "/ok"

/-! ### Set-semantics lemmas for the `List String`-encoded Python sets -/

theorem mem_setAdd {s : List String} {x y : String} :
    y ∈ setAdd s x ↔ y ∈ s ∨ y = x := by
  unfold setAdd
  split_ifs with h
  · constructor
    · exact Or.inl
    · rintro (hy | rfl)
      · exact hy
      · exact h
  · simp

theorem nodup_setAdd {s : List String} {x : String} (hs : s.Nodup) :
    (setAdd s x).Nodup := by
  unfold setAdd
  split_ifs with h
  · exact hs
  · simpa [List.nodup_append] using ⟨hs, h⟩

theorem mem_foldl_setAdd (l : List String) :
    ∀ (init : List String) (y : String),
      y ∈ l.foldl setAdd init ↔ y ∈ init ∨ y ∈ l := by
  induction l with
  | nil => intro init y; simp
  | cons a l ih =>
    intro init y
    simp only [List.foldl_cons, ih, mem_setAdd, List.mem_cons]
    tauto

theorem nodup_foldl_setAdd (l : List String) :
    ∀ init : List String, init.Nodup → (l.foldl setAdd init).Nodup := by
  induction l with
  | nil => intro init h; exact h
  | cons a l ih =>
    intro init h
    exact ih _ (nodup_setAdd h)

theorem mem_setUnion {s t : List String} {y : String} :
    y ∈ setUnion s t ↔ y ∈ s ∨ y ∈ t :=
  mem_foldl_setAdd t s y

theorem nodup_setUnion {s t : List String} (hs : s.Nodup) :
    (setUnion s t).Nodup :=
  nodup_foldl_setAdd t s hs

theorem setUnion_nil (s : List String) : setUnion s [] = s := rfl

theorem mem_scanImports {mapping : String → Option String} {installed : String → Bool}
    {nodes : List ImportStmt} {y : String} :
    y ∈ scanImports mapping installed nodes ↔
      ∃ node ∈ nodes, y ∈ processNodeCaught mapping installed node := by
  unfold scanImports
  rw [mem_foldl_setAdd]
  simp

theorem nodup_scanImports (mapping : String → Option String) (installed : String → Bool)
    (nodes : List ImportStmt) : (scanImports mapping installed nodes).Nodup :=
  nodup_foldl_setAdd _ [] List.nodup_nil

theorem mem_foldl_setUnion (c : SrcFile → List String) (files : List SrcFile) :
    ∀ (init : List String) (y : String),
      y ∈ files.foldl (fun acc f => setUnion acc (c f)) init ↔
        y ∈ init ∨ ∃ f ∈ files, y ∈ c f := by
  induction files with
  | nil => intro init y; simp
  | cons f fs ih =>
    intro init y
    simp only [List.foldl_cons, ih, mem_setUnion, List.mem_cons]
    constructor
    · rintro ((h | h) | ⟨g, hg, hy⟩)
      · exact Or.inl h
      · exact Or.inr ⟨f, Or.inl rfl, h⟩
      · exact Or.inr ⟨g, Or.inr hg, hy⟩
    · rintro (h | ⟨g, hg | hg, hy⟩)
      · exact Or.inl (Or.inl h)
      · exact Or.inl (Or.inr (hg ▸ hy))
      · exact Or.inr ⟨g, hg, hy⟩

theorem mem_scanDirectory {mapping : String → Option String} {installed : String → Bool}
    {files : List SrcFile} {y : String} :
    y ∈ scanDirectory mapping installed files ↔
      ∃ f ∈ files, y ∈ fileContribution mapping installed f := by
  unfold scanDirectory
  rw [mem_foldl_setUnion]
  simp

theorem nodup_scanDirectory (mapping : String → Option String) (installed : String → Bool)
    (files : List SrcFile) : (scanDirectory mapping installed files).Nodup := by
  unfold scanDirectory
  have h : ∀ (fs : List SrcFile) (init : List String), init.Nodup →
      (fs.foldl (fun acc f => setUnion acc (fileContribution mapping installed f)) init).Nodup := by
    intro fs
    induction fs with
    | nil => intro init h; exact h
    | cons f fs ih => intro init h; exact ih _ (nodup_setUnion h)
  exact h files [] List.nodup_nil

/-! ### Sorting lemmas -/

theorem sortStrings_perm (l : List String) : (sortStrings l).Perm l :=
  @List.perm_insertionSort String (fun a b => a ≤ b) (fun a b => strLeDec a b) l

theorem sortStrings_sorted (l : List String) : (sortStrings l).Sorted (fun a b => a ≤ b) :=
  @List.sorted_insertionSort String (fun a b => a ≤ b) (fun a b => strLeDec a b) _ _ l

theorem mem_sortStrings {l : List String} {y : String} : y ∈ sortStrings l ↔ y ∈ l :=
  (sortStrings_perm l).mem_iff

theorem sortStrings_eq_of_perm {l₁ l₂ : List String} (h : l₁.Perm l₂) :
    sortStrings l₁ = sortStrings l₂ :=
  List.eq_of_perm_of_sorted
    ((sortStrings_perm l₁).trans (h.trans (sortStrings_perm l₂).symm))
    (sortStrings_sorted l₁) (sortStrings_sorted l₂)

theorem nodup_sortStrings {l : List String} (h : l.Nodup) : (sortStrings l).Nodup :=
  (sortStrings_perm l).nodup_iff.mpr h

theorem get_directory_input_ne_exit (abspath : String → String) (isdir : String → Bool)
    (cwd : String) :
    ∀ inputs, get_directory_input abspath isdir cwd inputs ≠ DirOutcome.exitNonZero := by
  intro inputs
  induction inputs with
  | nil => simp [get_directory_input]
  | cons d rest ih =>
    simp only [get_directory_input]
    split_ifs with h1 h2
    · simp
    · simp
    · exact ih

/-! ### The claims -/

/-- C1: classification applies the five rules in order, first match wins:
(1) standard-library names are not external; (2) a mapping key is external
under the mapped value, regardless of installation; (3) an installed
distribution is external under its own name; (4) a common-external name is
external under its own name; (5) everything else is not external.  In
particular a module that is both a mapping key and installed is emitted
under the mapped value (rule 2 never consults `installed`). -/
theorem claim1_classification_rule_order
    (mapping : String → Option String) (installed : String → Bool) (m : String) :
    (m ∈ stdlib_modules → is_external_package mapping installed m = false) ∧
    (m ∉ stdlib_modules → ∀ v, mapping m = some v →
      is_external_package mapping installed m = true ∧ get_package_name mapping m = v) ∧
    (m ∉ stdlib_modules → mapping m = none → installed m = true →
      is_external_package mapping installed m = true ∧ get_package_name mapping m = m) ∧
    (m ∉ stdlib_modules → mapping m = none → installed m = false → m ∈ common_external →
      is_external_package mapping installed m = true ∧ get_package_name mapping m = m) ∧
    (m ∉ stdlib_modules → mapping m = none → installed m = false → m ∉ common_external →
      is_external_package mapping installed m = false) := by
  refine ⟨?_, ?_, ?_, ?_, ?_⟩
  · intro h
    simp [is_external_package, h]
  · intro h v hv
    simp [is_external_package, get_package_name, h, hv]
  · intro h hm hi
    simp [is_external_package, get_package_name, h, hm, hi]
  · intro h hm hi hc
    simp [is_external_package, get_package_name, h, hm, hi, hc]
  · intro h hm hi hc
    simp [is_external_package, h, hm, hi, hc]

/-- Witness for C1 at the repository's own example: `cv2` is a mapping key
(mapped to `opencv-python`) and also installed under its own name; the
mapped value wins. -/
theorem claim1_classification_rule_order_witness :
    is_external_package demoMapping demoInstalled "cv2" = true ∧
    get_package_name demoMapping "cv2" = "opencv-python" :=
  (claim1_classification_rule_order demoMapping demoInstalled "cv2").2.1
    (by decide) "opencv-python" (by decide)

/-- C2 as stated is false: the walk only skips `.venv` path components, so a
`.py` file under a `venv` path component is scanned and can contribute to the
Import Set (here it contributes `numpy`). -/
theorem claim2_counterexample_venv_component_scanned :
    ("venv" ∈ (["home", "proj", "venv"] : List String)) ∧
    endsWithPy "lib.py" = true ∧
    scanDirectory emptyMapping noneInstalled
      [⟨["home", "proj", "venv"], "lib.py", FileContent.parsed [ImportStmt.imp ["numpy"]]⟩]
      = ["numpy"] := by
  decide

/-- C2 amended: a file under a `.venv` path component is never scanned and
contributes nothing to the Import Set; `.venv` is the only
environment-directory name the walk excludes (`venv` and `myenv` are only
used by `find_existing_venv` when reusing an environment, not as scan
exclusions). -/
theorem claim2_only_dotvenv_excluded
    (mapping : String → Option String) (installed : String → Bool)
    (files : List SrcFile) :
    scanDirectory mapping installed
        (files.filter (fun f => decide (".venv" ∉ f.path))) =
      scanDirectory mapping installed files := by
  unfold scanDirectory
  have h : ∀ (fs : List SrcFile) (init : List String),
      (fs.filter (fun f => decide (".venv" ∉ f.path))).foldl
          (fun acc f => setUnion acc (fileContribution mapping installed f)) init =
        fs.foldl (fun acc f => setUnion acc (fileContribution mapping installed f)) init := by
    intro fs
    induction fs with
    | nil => intro init; rfl
    | cons f fs ih =>
      intro init
      by_cases hv : ".venv" ∈ f.path
      · have hc : fileContribution mapping installed f = [] := by
          simp [fileContribution, hv]
        have hfilter : (f :: fs).filter (fun f => decide (".venv" ∉ f.path)) =
            fs.filter (fun f => decide (".venv" ∉ f.path)) := by
          simp [List.filter_cons, hv]
        rw [hfilter, ih, List.foldl_cons, hc, setUnion_nil]
      · have hfilter : (f :: fs).filter (fun f => decide (".venv" ∉ f.path)) =
            f :: fs.filter (fun f => decide (".venv" ∉ f.path)) := by
          simp [List.filter_cons, hv]
        rw [hfilter, List.foldl_cons, List.foldl_cons, ih]
  exact h files []

/-- C3: a relative from-import (level ≥ 1) contributes no module name to the
file's import set; an absolute from-import records exactly the first dotted
segment of its module (when classified external). -/
theorem claim3_relative_imports_excluded
    (mapping : String → Option String) (installed : String → Bool)
    (module : Option String) (level : Nat) (nodes : List ImportStmt)
    (h : 1 ≤ level) :
    processNodeCaught mapping installed (ImportStmt.fromImp module level) = [] ∧
    scanImports mapping installed (ImportStmt.fromImp module level :: nodes) =
      scanImports mapping installed nodes ∧
    (∀ m, processNodeCaught mapping installed (ImportStmt.fromImp (some m) 0) =
      if is_external_package mapping installed (firstSegment m) then
        [get_package_name mapping (firstSegment m)]
      else []) := by
  have hlvl : level ≠ 0 := by omega
  have h0 : processNodeCaught mapping installed (ImportStmt.fromImp module level) = [] := by
    simp [processNodeCaught, processNode, hlvl]
  refine ⟨h0, ?_, ?_⟩
  · simp [scanImports, List.flatMap_cons, h0]
  · intro m
    simp [processNodeCaught, processNode]

/-- Witness for C3: a level-1 from-import in front of a file's nodes changes
nothing. -/
theorem claim3_relative_imports_excluded_witness :
    1 ≤ 1 ∧
    (processNodeCaught emptyMapping noneInstalled (ImportStmt.fromImp (some "pkg") 1) = [] ∧
     scanImports emptyMapping noneInstalled
         (ImportStmt.fromImp (some "pkg") 1 :: [ImportStmt.imp ["numpy"]]) =
       scanImports emptyMapping noneInstalled [ImportStmt.imp ["numpy"]] ∧
     (∀ m, processNodeCaught emptyMapping noneInstalled (ImportStmt.fromImp (some m) 0) =
       if is_external_package emptyMapping noneInstalled (firstSegment m) then
         [get_package_name emptyMapping (firstSegment m)]
       else [])) :=
  ⟨by decide,
   claim3_relative_imports_excluded emptyMapping noneInstalled (some "pkg") 1
     [ImportStmt.imp ["numpy"]] (by decide)⟩

/-- C4: a file that fails to be read, decoded or parsed contributes the
empty set of imports, and removing it from the walk leaves the aggregated
Import Set unchanged wherever it occurs — the manifest is exactly what the
successfully parsed files produce. -/
theorem claim4_per_file_failure_contained
    (mapping : String → Option String) (installed : String → Bool)
    (pre post : List SrcFile) (f : SrcFile)
    (h : f.content = FileContent.unreadable ∨ f.content = FileContent.unparsable) :
    scanImportsFile mapping installed f.content = [] ∧
    scanDirectory mapping installed (pre ++ f :: post) =
      scanDirectory mapping installed (pre ++ post) := by
  have h1 : scanImportsFile mapping installed f.content = [] := by
    rcases h with h | h <;> rw [h] <;> rfl
  refine ⟨h1, ?_⟩
  unfold scanDirectory
  rw [List.foldl_append, List.foldl_append, List.foldl_cons]
  have h2 : fileContribution mapping installed f = [] := by
    unfold fileContribution
    rw [h1]
    split_ifs <;> rfl
  rw [h2, setUnion_nil]

/-- Witness for C4: a syntactically invalid file between two valid ones
changes nothing about the scan. -/
theorem claim4_per_file_failure_contained_witness :
    ((FileContent.unparsable : FileContent) = FileContent.unreadable ∨
      (FileContent.unparsable : FileContent) = FileContent.unparsable) ∧
    (scanImportsFile emptyMapping noneInstalled FileContent.unparsable = [] ∧
     scanDirectory emptyMapping noneInstalled
         ([⟨["proj"], "a.py", FileContent.parsed [ImportStmt.imp ["numpy"]]⟩] ++
           ⟨["proj"], "bad.py", FileContent.unparsable⟩ ::
             [⟨["proj"], "b.py", FileContent.parsed [ImportStmt.imp ["pandas"]]⟩]) =
       scanDirectory emptyMapping noneInstalled
         ([⟨["proj"], "a.py", FileContent.parsed [ImportStmt.imp ["numpy"]]⟩] ++
           [⟨["proj"], "b.py", FileContent.parsed [ImportStmt.imp ["pandas"]]⟩])) :=
  ⟨Or.inr rfl,
   claim4_per_file_failure_contained emptyMapping noneInstalled
     [⟨["proj"], "a.py", FileContent.parsed [ImportStmt.imp ["numpy"]]⟩]
     [⟨["proj"], "b.py", FileContent.parsed [ImportStmt.imp ["pandas"]]⟩]
     ⟨["proj"], "bad.py", FileContent.unparsable⟩ (Or.inr rfl)⟩

/-- C5: a parsed file whose import statements reference only
standard-library module names contributes nothing to the Import Set,
whatever the mapping and the installed distributions. -/
theorem claim5_stdlib_only_contributes_nothing
    (mapping : String → Option String) (installed : String → Bool)
    (nodes : List ImportStmt)
    (h : ∀ node ∈ nodes, ∀ n ∈ stmtRawNames node, firstSegment n ∈ stdlib_modules) :
    scanImports mapping installed nodes = [] ∧
    ∀ path name, fileContribution mapping installed
      ⟨path, name, FileContent.parsed nodes⟩ = [] := by
  have key : ∀ node ∈ nodes, processNodeCaught mapping installed node = [] := by
    intro node hn
    cases node with
    | imp names =>
      simp only [processNodeCaught, processNode, List.filterMap_eq_nil_iff]
      intro n hn'
      have hs : firstSegment n ∈ stdlib_modules := h _ hn _ (by simpa [stmtRawNames] using hn')
      simp [is_external_package, hs]
    | fromImp module level =>
      by_cases hl : level = 0
      · cases module with
        | none => simp [processNodeCaught, processNode, hl]
        | some m =>
          have hs : firstSegment m ∈ stdlib_modules :=
            h _ hn _ (by simp [stmtRawNames, hl])
          simp [processNodeCaught, processNode, hl, is_external_package, hs]
      · simp [processNodeCaught, processNode, hl]
  have h1 : scanImports mapping installed nodes = [] := by
    rw [List.eq_nil_iff_forall_not_mem]
    intro y hy
    rw [mem_scanImports] at hy
    obtain ⟨node, hn, hy⟩ := hy
    rw [key node hn] at hy
    exact absurd hy (List.not_mem_nil y)
  refine ⟨h1, ?_⟩
  intro path name
  unfold fileContribution
  split_ifs <;> simp [scanImportsFile, h1]

/-- Witness for C5: a file importing only `os`, `sys.path` and
`json.decoder` contributes nothing. -/
theorem claim5_stdlib_only_contributes_nothing_witness :
    (∀ node ∈ [ImportStmt.imp ["os", "sys.path"],
               ImportStmt.fromImp (some "json.decoder") 0],
      ∀ n ∈ stmtRawNames node, firstSegment n ∈ stdlib_modules) ∧
    (scanImports demoMapping demoInstalled
        [ImportStmt.imp ["os", "sys.path"], ImportStmt.fromImp (some "json.decoder") 0] = [] ∧
     ∀ path name, fileContribution demoMapping demoInstalled
       ⟨path, name, FileContent.parsed
         [ImportStmt.imp ["os", "sys.path"], ImportStmt.fromImp (some "json.decoder") 0]⟩ = []) :=
  ⟨by decide,
   claim5_stdlib_only_contributes_nothing demoMapping demoInstalled
     [ImportStmt.imp ["os", "sys.path"], ImportStmt.fromImp (some "json.decoder") 0]
     (by decide)⟩

/-- C6: every package name appears at most once in the written manifest,
for every mapping, environment and directory. -/
theorem claim6_manifest_no_duplicates
    (mapping : String → Option String) (installed : String → Bool)
    (files : List SrcFile) (p : String) :
    (create_requirements_lines (scanDirectory mapping installed files)).count p ≤ 1 := by
  have h : (create_requirements_lines (scanDirectory mapping installed files)).Nodup :=
    nodup_sortStrings (nodup_scanDirectory mapping installed files)
  exact List.nodup_iff_count_le_one.mp h p

/-- C7: the manifest is sorted and depends only on the set of walked files,
not on the order in which the walk yields them; in particular scanning the
same unchanged directory twice yields an identical manifest. -/
theorem claim7_manifest_order_independent
    (mapping : String → Option String) (installed : String → Bool)
    (files₁ files₂ : List SrcFile) (h : files₁.Perm files₂) :
    create_requirements_lines (scanDirectory mapping installed files₁) =
      create_requirements_lines (scanDirectory mapping installed files₂) ∧
    (create_requirements_lines (scanDirectory mapping installed files₁)).Sorted
      (fun a b => a ≤ b) := by
  have hmem : ∀ y, y ∈ scanDirectory mapping installed files₁ ↔
      y ∈ scanDirectory mapping installed files₂ := by
    intro y
    rw [mem_scanDirectory, mem_scanDirectory]
    constructor
    · rintro ⟨f, hf, hy⟩
      exact ⟨f, h.mem_iff.mp hf, hy⟩
    · rintro ⟨f, hf, hy⟩
      exact ⟨f, h.mem_iff.mpr hf, hy⟩
  have hperm : (scanDirectory mapping installed files₁).Perm
      (scanDirectory mapping installed files₂) :=
    (List.perm_ext_iff_of_nodup (nodup_scanDirectory mapping installed files₁)
      (nodup_scanDirectory mapping installed files₂)).mpr hmem
  exact ⟨sortStrings_eq_of_perm hperm, sortStrings_sorted _⟩

/-- Witness for C7: swapping two files of the walk leaves the manifest
unchanged. -/
theorem claim7_manifest_order_independent_witness :
    (create_requirements_lines (scanDirectory emptyMapping noneInstalled
        [⟨["p"], "a.py", FileContent.parsed [ImportStmt.imp ["numpy"]]⟩,
         ⟨["p"], "b.py", FileContent.parsed [ImportStmt.imp ["pandas"]]⟩]) =
      create_requirements_lines (scanDirectory emptyMapping noneInstalled
        [⟨["p"], "b.py", FileContent.parsed [ImportStmt.imp ["pandas"]]⟩,
         ⟨["p"], "a.py", FileContent.parsed [ImportStmt.imp ["numpy"]]⟩])) ∧
    (create_requirements_lines (scanDirectory emptyMapping noneInstalled
        [⟨["p"], "a.py", FileContent.parsed [ImportStmt.imp ["numpy"]]⟩,
         ⟨["p"], "b.py", FileContent.parsed [ImportStmt.imp ["pandas"]]⟩])).Sorted
      (fun a b => a ≤ b) :=
  claim7_manifest_order_independent emptyMapping noneInstalled
    [⟨["p"], "a.py", FileContent.parsed [ImportStmt.imp ["numpy"]]⟩,
     ⟨["p"], "b.py", FileContent.parsed [ImportStmt.imp ["pandas"]]⟩]
    [⟨["p"], "b.py", FileContent.parsed [ImportStmt.imp ["pandas"]]⟩,
     ⟨["p"], "a.py", FileContent.parsed [ImportStmt.imp ["numpy"]]⟩]
    (List.Perm.swap
      (⟨["p"], "b.py", FileContent.parsed [ImportStmt.imp ["pandas"]]⟩ : SrcFile)
      (⟨["p"], "a.py", FileContent.parsed [ImportStmt.imp ["numpy"]]⟩ : SrcFile) [])

/-- C8: a from-import node whose module is `None` or the empty string
contributes nothing, and `scan_imports` still returns normally (the `None`
case raises inside the per-node loop and is caught by its handler).  The
empty-string case assumes the mapping has no empty key and no distribution
has an empty name, which `package_mapping.json` and `importlib.metadata`
guarantee in practice. -/
theorem claim8_none_or_empty_module_skipped
    (mapping : String → Option String) (installed : String → Bool)
    (level : Nat) (nodes : List ImportStmt)
    (hmap : mapping "" = none) (hinst : installed "" = false) :
    processNodeCaught mapping installed (ImportStmt.fromImp none level) = [] ∧
    processNodeCaught mapping installed (ImportStmt.fromImp (some "") level) = [] ∧
    scanImports mapping installed (ImportStmt.fromImp none level :: nodes) =
      scanImports mapping installed nodes ∧
    scanImports mapping installed (ImportStmt.fromImp (some "") level :: nodes) =
      scanImports mapping installed nodes := by
  have hext : is_external_package mapping installed "" = false := by
    simp only [is_external_package, hmap, hinst]
    decide
  have hn : processNodeCaught mapping installed (ImportStmt.fromImp none level) = [] := by
    by_cases hl : level = 0 <;> simp [processNodeCaught, processNode, hl]
  have hs : processNodeCaught mapping installed (ImportStmt.fromImp (some "") level) = [] := by
    by_cases hl : level = 0
    · have hfs : firstSegment "" = "" := rfl
      simp [processNodeCaught, processNode, hl, hfs, hext]
    · simp [processNodeCaught, processNode, hl]
  exact ⟨hn, hs, by simp [scanImports, List.flatMap_cons, hn],
    by simp [scanImports, List.flatMap_cons, hs]⟩

/-- Witness for C8 with the empty mapping and no installed distributions. -/
theorem claim8_none_or_empty_module_skipped_witness :
    emptyMapping "" = none ∧ noneInstalled "" = false ∧
    (processNodeCaught emptyMapping noneInstalled (ImportStmt.fromImp none 0) = [] ∧
     processNodeCaught emptyMapping noneInstalled (ImportStmt.fromImp (some "") 0) = [] ∧
     scanImports emptyMapping noneInstalled
         (ImportStmt.fromImp none 0 :: [ImportStmt.imp ["numpy"]]) =
       scanImports emptyMapping noneInstalled [ImportStmt.imp ["numpy"]] ∧
     scanImports emptyMapping noneInstalled
         (ImportStmt.fromImp (some "") 0 :: [ImportStmt.imp ["numpy"]]) =
       scanImports emptyMapping noneInstalled [ImportStmt.imp ["numpy"]]) :=
  ⟨rfl, rfl,
   claim8_none_or_empty_module_skipped emptyMapping noneInstalled 0
     [ImportStmt.imp ["numpy"]] rfl rfl⟩

/-- C9 as stated is false for the interactive path: a nonexistent directory
typed at the prompt is reported and re-prompted, not a non-zero exit; with a
later valid answer the run proceeds to scanning and produces a manifest. -/
theorem claim9_counterexample_interactive_retry :
    demoIsdir "/bad" = false ∧
    resolveProjectDir id demoIsdir "/cwd" none ["/bad", "/ok"] = DirOutcome.proceed "/ok" ∧
    runScan id demoIsdir "/cwd" none ["/bad", "/ok"] emptyMapping noneInstalled
        [⟨["proj"], "a.py", FileContent.parsed [ImportStmt.imp ["numpy"]]⟩]
      = some ["numpy"] := by
  decide

/-- C9 amended: when the root directory is supplied with the `-i` flag and
does not exist, the program reports the error and exits with status 1 before
any scanning (no manifest is produced); a directory typed at the interactive
prompt never causes a non-zero exit — invalid answers are re-prompted. -/
theorem claim9_flag_invalid_dir_exits
    (abspath : String → String) (isdir : String → Bool) (cwd : String)
    (inputs : List String) (mapping : String → Option String) (installed : String → Bool)
    (files : List SrcFile) (d : String)
    (h : isdir (abspath d) = false) :
    resolveProjectDir abspath isdir cwd (some d) inputs = DirOutcome.exitNonZero ∧
    runScan abspath isdir cwd (some d) inputs mapping installed files = none ∧
    (∀ ins, resolveProjectDir abspath isdir cwd none ins ≠ DirOutcome.exitNonZero) := by
  have h1 : resolveProjectDir abspath isdir cwd (some d) inputs = DirOutcome.exitNonZero := by
    simp [resolveProjectDir, h]
  refine ⟨h1, ?_, ?_⟩
  · simp [runScan, h1]
  · intro ins
    exact get_directory_input_ne_exit abspath isdir cwd ins

/-- Witness for C9 (amended): the flag path with a nonexistent directory. -/
theorem claim9_flag_invalid_dir_exits_witness :
    demoIsdir (id "/bad") = false ∧
    (resolveProjectDir id demoIsdir "/cwd" (some "/bad") ["/ok"] = DirOutcome.exitNonZero ∧
     runScan id demoIsdir "/cwd" (some "/bad") ["/ok"] emptyMapping noneInstalled
         [⟨["proj"], "a.py", FileContent.parsed [ImportStmt.imp ["numpy"]]⟩] = none ∧
     (∀ ins, resolveProjectDir id demoIsdir "/cwd" none ins ≠ DirOutcome.exitNonZero)) := by
  refine ⟨by decide, ?_⟩
  have h := claim9_flag_invalid_dir_exits id demoIsdir "/cwd" ["/ok"] emptyMapping
    noneInstalled [⟨["proj"], "a.py", FileContent.parsed [ImportStmt.imp ["numpy"]]⟩]
    "/bad" (by decide)
  exact ⟨h.1, h.2.1, h.2.2⟩

/-- C10: every manifest line is either the mapping's value for the first
dotted segment of some name that literally appears in an import statement of
a scanned file, or that first dotted segment itself; nothing else is ever
emitted. -/
theorem claim10_manifest_lines_traceable
    (mapping : String → Option String) (installed : String → Bool)
    (files : List SrcFile) (p : String)
    (h : p ∈ create_requirements_lines (scanDirectory mapping installed files)) :
    ∃ f ∈ files, (".venv" ∉ f.path) ∧ endsWithPy f.name = true ∧
      ∃ raw ∈ fileRawNames f,
        mapping (firstSegment raw) = some p ∨ p = firstSegment raw := by
  have h0 : p ∈ sortStrings (scanDirectory mapping installed files) := h
  have h1 : p ∈ scanDirectory mapping installed files := mem_sortStrings.mp h0
  rw [mem_scanDirectory] at h1
  obtain ⟨f, hf, hp⟩ := h1
  by_cases hv : ".venv" ∈ f.path
  · simp [fileContribution, hv] at hp
  by_cases hw : endsWithPy f.name = true
  case neg => simp [fileContribution, hv, hw] at hp
  have hp2 : p ∈ scanImportsFile mapping installed f.content := by
    simpa [fileContribution, hv, hw] using hp
  cases hc : f.content with
  | unreadable => rw [hc] at hp2; exact absurd hp2 (List.not_mem_nil p)
  | unparsable => rw [hc] at hp2; exact absurd hp2 (List.not_mem_nil p)
  | parsed nodes =>
    rw [hc] at hp2
    have hp3 : p ∈ scanImports mapping installed nodes := hp2
    rw [mem_scanImports] at hp3
    obtain ⟨node, hnode, hpn⟩ := hp3
    have key : ∃ raw ∈ stmtRawNames node,
        p = get_package_name mapping (firstSegment raw) := by
      cases node with
      | imp names =>
        simp only [processNodeCaught, processNode, List.mem_filterMap] at hpn
        obtain ⟨n, hn, he⟩ := hpn
        by_cases hex : is_external_package mapping installed (firstSegment n) = true
        · rw [if_pos hex] at he
          exact ⟨n, by simpa [stmtRawNames] using hn, (Option.some.inj he).symm⟩
        · rw [if_neg hex] at he
          cases he
      | fromImp module level =>
        by_cases hl : level = 0
        · cases module with
          | none => simp [processNodeCaught, processNode, hl] at hpn
          | some m =>
            simp only [processNodeCaught, processNode, hl, if_pos] at hpn
            by_cases hex : is_external_package mapping installed (firstSegment m) = true
            · rw [if_pos hex] at hpn
              simp only [List.mem_singleton] at hpn
              exact ⟨m, by simp [stmtRawNames, hl], hpn⟩
            · rw [if_neg hex] at hpn
              exact absurd hpn (List.not_mem_nil p)
        · simp [processNodeCaught, processNode, hl] at hpn
    obtain ⟨raw, hraw, hpe⟩ := key
    refine ⟨f, hf, hv, hw, raw, ?_, ?_⟩
    · rw [fileRawNames, hc]
      exact List.mem_flatMap.mpr ⟨node, hnode, hraw⟩
    · rw [hpe]
      unfold get_package_name
      cases hm : mapping (firstSegment raw) with
      | some v => exact Or.inl (by simp [hm])
      | none => exact Or.inr (by simp [hm])

/-- Witness for C10: the single manifest line `numpy` traces back to the
literal name `numpy.linalg` in the scanned file. -/
theorem claim10_manifest_lines_traceable_witness :
    ("numpy" ∈ create_requirements_lines (scanDirectory emptyMapping noneInstalled
        [⟨["proj"], "a.py", FileContent.parsed [ImportStmt.imp ["numpy.linalg"]]⟩])) ∧
    (∃ f ∈ [(⟨["proj"], "a.py",
          FileContent.parsed [ImportStmt.imp ["numpy.linalg"]]⟩ : SrcFile)],
      (".venv" ∉ f.path) ∧ endsWithPy f.name = true ∧
      ∃ raw ∈ fileRawNames f,
        emptyMapping (firstSegment raw) = some "numpy" ∨ "numpy" = firstSegment raw) :=
  ⟨by decide,
   claim10_manifest_lines_traceable emptyMapping noneInstalled
     [⟨["proj"], "a.py", FileContent.parsed [ImportStmt.imp ["numpy.linalg"]]⟩]
     "numpy" (by decide)⟩

end DepScan

